import Mathlib

/-!
Verification development for the formmerge repository (src/app.py and
src/streamlit_app.py).

The two Python files are shallowly embedded below.  The PyMuPDF (`fitz`)
library is external to the repository; its observable behaviour at the calls
the repository makes (`fitz.open`, `Page.get_pixmap`, `Pixmap.tobytes`,
`Document.new_page` / `insert_image` / `tobytes`, `fitz.Matrix`) is modelled
in the `Fitz` namespace, with the parsing of raw bytes into a page list kept
abstract as a function parameter `parse` so that every theorem holds for any
behaviour of the external parser.  `hashlib.sha1` is modelled as an injective
digest of the content (collisions are assumed absent, which is the sense in
which the repository uses it).  PDF serialization (`Document.tobytes`) is
modelled as an injective function of the output page list, i.e. the output
byte string is identified with the list of produced pages; PyMuPDF raises
`ValueError: cannot save with zero pages` when the output document has no
pages, which is modelled by the `saveZeroPages` error.
-/

namespace FormMerge

/-- Raw byte strings (`bytes` in Python) are modelled as lists of naturals. -/
abbrev Bytes := List Nat

/-- Model of one PDF page as seen through the `fitz` calls the repository
makes: its media-box width and height in points (72 per inch), an abstract
token for its visual content, and the abstract behaviour of the external
renderer on it: `renderErr = some c` means `Page.get_pixmap` raises an
exception with cause `c`, and `encodeErr = some c` means `Pixmap.tobytes`
raises an exception with cause `c` on the pixmap rendered from this page. -/
structure Page where
  widthPts : ℚ
  heightPts : ℚ
  content : Nat
  renderErr : Option Nat
  encodeErr : Option Nat
deriving DecidableEq, Repr

/-- Model of a parsed PDF document: its ordered list of pages. -/
structure Pdf where
  pages : List Page
deriving DecidableEq, Repr

/-- Abstract behaviour of `fitz.open(stream=..., filetype="pdf")`: raw bytes
either parse into a document or raise an exception with an abstract cause.
All definitions take the parser as a parameter, so every theorem quantifies
over the behaviour of the external library. -/
abbrev PdfParse := Bytes → Except Nat Pdf

/-- Exceptions that can escape `flatten_pdfs`: a failure of `fitz.open` on an
entry's bytes, a failure of `Page.get_pixmap`, a failure of `Pixmap.tobytes`
(image encoding), and the `ValueError` PyMuPDF raises when serializing an
output document that has zero pages.  Note that the exceptions propagated by
the source code carry only the underlying cause; they carry no document index
and no page index. -/
inductive FlattenErr where
  | openError (cause : Nat)
  | pixmapError (cause : Nat)
  | encodeError (cause : Nat)
  | saveZeroPages
deriving DecidableEq, Repr

namespace Fitz

/-- Model of `fitz.Matrix`: the six entries of a planar affine transform,
mapping `(x, y)` to `(a*x + c*y + e, b*x + d*y + f)`. -/
structure Mat where
  a : ℚ
  b : ℚ
  c : ℚ
  d : ℚ
  e : ℚ
  f : ℚ
deriving DecidableEq, Repr

/-- The `fitz.Matrix(z1, z2)` constructor: a pure scaling matrix. -/
def Matrix_scale (z1 z2 : ℚ) : Mat :=
  ⟨z1, 0, 0, z2, 0, 0⟩

/-- Application of a `fitz.Matrix` to a point. -/
def mat_apply (m : Mat) (x y : ℚ) : ℚ × ℚ :=
  (m.a * x + m.c * y + m.e, m.b * x + m.d * y + m.f)

/-- Model of `fitz.Pixmap` as produced by `Page.get_pixmap(colorspace=csRGB,
alpha=False)`: integer pixel dimensions, an abstract token for the rendered
pixel content, and the abstract encoding behaviour inherited from the page. -/
structure Pixmap where
  width : Nat
  height : Nat
  content : Nat
  encodeErr : Option Nat
deriving DecidableEq, Repr

/-- Model of `Page.get_pixmap(matrix=m, colorspace=fitz.csRGB, alpha=False)`:
if the external renderer fails on the page the exception propagates;
otherwise the pixel dimensions are those of the integer bounding box of the
page rectangle `(0, 0, widthPts, heightPts)` transformed by `m` (MuPDF
transforms the page rect by the matrix and rounds it outward to an integer
rectangle: floor of the minimum, ceiling of the maximum, over the four
transformed corners). -/
def get_pixmap (pg : Page) (m : Mat) : Except FlattenErr Pixmap :=
  match pg.renderErr with
  | some c => .error (.pixmapError c)
  | none =>
    let cx1 := m.e
    let cx2 := m.a * pg.widthPts + m.e
    let cx3 := m.c * pg.heightPts + m.e
    let cx4 := m.a * pg.widthPts + m.c * pg.heightPts + m.e
    let cy1 := m.f
    let cy2 := m.b * pg.widthPts + m.f
    let cy3 := m.d * pg.heightPts + m.f
    let cy4 := m.b * pg.widthPts + m.d * pg.heightPts + m.f
    let x0 := min (min cx1 cx2) (min cx3 cx4)
    let x1 := max (max cx1 cx2) (max cx3 cx4)
    let y0 := min (min cy1 cy2) (min cy3 cy4)
    let y1 := max (max cy1 cy2) (max cy3 cy4)
    .ok { width := (⌈x1⌉ - ⌊x0⌋).toNat
          height := (⌈y1⌉ - ⌊y0⌋).toNat
          content := pg.content
          encodeErr := pg.encodeErr }

/-- Model of an encoded image stream as returned by `Pixmap.tobytes`: the
encoded bytes are identified with the codec, the quality setting (JPEG only),
the pixel dimensions and the pixel content they encode. -/
structure ImgBytes where
  codec : String
  quality : Option Nat
  w : Nat
  h : Nat
  content : Nat
deriving DecidableEq, Repr

/-- Model of `pix.tobytes("jpeg", jpg_quality=q)`. -/
def tobytes_jpeg (pix : Pixmap) (jpg_quality : Nat) : Except FlattenErr ImgBytes :=
  match pix.encodeErr with
  | some c => .error (.encodeError c)
  | none => .ok { codec := "jpeg", quality := some jpg_quality,
                  w := pix.width, h := pix.height, content := pix.content }

/-- Model of `pix.tobytes("png")`. -/
def tobytes_png (pix : Pixmap) : Except FlattenErr ImgBytes :=
  match pix.encodeErr with
  | some c => .error (.encodeError c)
  | none => .ok { codec := "png", quality := none,
                  w := pix.width, h := pix.height, content := pix.content }

end Fitz

/-- One page of the output document, as produced by
`output_doc.new_page(width=w, height=h)` followed by
`new_page.insert_image(rect, stream=image_bytes)`: the page dimensions in
points, the placement rectangle, and the inserted image stream. -/
structure OutPage where
  width : ℚ
  height : ℚ
  rect : ℚ × ℚ × ℚ × ℚ
  image : Fitz.ImgBytes
deriving DecidableEq, Repr

/-- Model of `output_doc.tobytes()`: PyMuPDF raises
`ValueError: cannot save with zero pages` when the document is empty;
otherwise serialization is modelled as the identity (an injective function)
on the list of pages appended to the output document. -/
def pdf_tobytes (pages : List OutPage) : Except FlattenErr (List OutPage) :=
  if pages.isEmpty then .error .saveZeroPages else .ok pages

/-- Model of `hashlib.sha1(file_bytes).hexdigest()`: a deterministic digest
of the content, modelled as an injective function of the bytes (hash
collisions are assumed absent; this is the idealization under which the
repository uses SHA-1 for deduplication). -/
def sha1_hexdigest (b : Bytes) : Bytes := b

/-- One entry of the `st.session_state["pdf_files"]` list: the dict
`{"id": ..., "name": ..., "data": ..., "checksum": ..., "pages": ...,
"size": ...}` built by `cache_uploaded_files`.  The dict built by
`streamlit_app.py` omits the `"size"` key; it is modelled with the same
record type, with `size` filled with the content length and never read. -/
structure Entry where
  id : String
  name : String
  data : Bytes
  checksum : Bytes
  pages : Nat
  size : Nat
deriving DecidableEq, Repr

/-- One element of the `uploaded_files` argument: its display name
(`uploaded.name`) and its raw content (`uploaded.getvalue()`). -/
structure Upload where
  name : String
  data : Bytes
deriving DecidableEq, Repr

/-- The observable outcome of processing one uploaded file inside
`cache_uploaded_files`: silently skipped as a duplicate checksum, skipped
with a warning because `fitz.open` failed, or appended to the registry. -/
inductive RegisterOutcome where
  | duplicate
  | invalid (cause : Nat)
  | registered
deriving DecidableEq, Repr

namespace App

/-- Loop body sequence of `cache_uploaded_files` in `src/app.py` (lines
244-265), processing the uploaded files in order.  `uuid.uuid4()` generation
is modelled by an externally supplied stream of fresh identifiers, one per
uploaded file (zipped below).  The Python `set` `existing_hashes` is modelled
as a list with membership; note that the source adds the new checksum to
`existing_hashes` *before* attempting to open the bytes as a PDF. -/
def cacheLoop (parse : PdfParse) :
    List (String × Upload) → List Bytes → List Entry →
    List RegisterOutcome × List Entry
  | [], _, st => ([], st)
  | (id, uploaded) :: rest, existing_hashes, st =>
    let file_bytes := uploaded.data
    let checksum := sha1_hexdigest file_bytes
    if checksum ∈ existing_hashes then
      let (outs, st') := cacheLoop parse rest existing_hashes st
      (.duplicate :: outs, st')
    else
      let existing_hashes' := checksum :: existing_hashes
      match parse file_bytes with
      | .error exc =>
        let (outs, st') := cacheLoop parse rest existing_hashes' st
        (.invalid exc :: outs, st')
      | .ok doc =>
        let entry : Entry :=
          { id := id, name := uploaded.name, data := file_bytes,
            checksum := checksum, pages := doc.pages.length,
            size := file_bytes.length }
        let (outs, st') := cacheLoop parse rest existing_hashes' (st ++ [entry])
        (.registered :: outs, st')

/-- `cache_uploaded_files` of `src/app.py`: `existing_hashes` is initialized
with the checksums of the current `st.session_state["pdf_files"]`, and the
uploaded files are processed in order.  Returns the per-file outcomes
together with the new registry list. -/
def cache_uploaded_files (parse : PdfParse) (ids : List String)
    (uploaded_files : List Upload) (st : List Entry) :
    List RegisterOutcome × List Entry :=
  cacheLoop parse (ids.zip uploaded_files) (st.map (·.checksum)) st

/-- `remove_item` of `src/app.py` (lines 268-271). -/
def remove_item (item_id : String) (files : List Entry) : List Entry :=
  files.filter (fun item => item.id ≠ item_id)

/-- The display label `f"{item['name']} — {item['pages']} pages · #{item['id'][:4]}"`
built in `render_uploaded_list` (src/app.py lines 322-325). -/
def display_label (item : Entry) : String :=
  item.name ++ " — " ++ toString item.pages ++ " pages · #" ++ item.id.take 4

/-- The Python dict `mapping = {label: entry for label, entry in
zip(display_labels, files)}` looked up at `label`: when several entries share
a display label, later insertions overwrite earlier ones, so the lookup
returns the *last* entry with that label; a label absent from the dict raises
`KeyError`, modelled as `none`. -/
def label_lookup (files : List Entry) (label : String) : Option Entry :=
  (files.filter (fun entry => display_label entry = label)).getLast?

/-- The reorder applied in `render_uploaded_list` (src/app.py lines 334-336):
`if reordered and reordered != display_labels:` guards the reassignment
`st.session_state["pdf_files"] = [mapping[label] for label in reordered]`,
so the list is rebuilt only when the returned label sequence is non-empty
and differs from the current one; otherwise the registry is left as it is.
A `KeyError` (a label naming no entry) is modelled by dropping the label. -/
def apply_reorder (files : List Entry) (reordered : List String) : List Entry :=
  if reordered ≠ [] ∧ reordered ≠ files.map display_label then
    reordered.filterMap (label_lookup files)
  else files

/-- The matrix `fitz.Matrix(dpi / 72.0, dpi / 72.0)` computed once in
`flatten_pdfs` (src/app.py line 282) and used for every page of every
document. -/
def flatten_matrix (dpi : Nat) : Fitz.Mat :=
  Fitz.Matrix_scale ((dpi : ℚ) / 72) ((dpi : ℚ) / 72)

/-- The per-page body of `flatten_pdfs` (src/app.py lines 286-298):
rasterize the page through the shared matrix, encode the pixmap (JPEG at
`jpeg_quality` when `image_format == "JPEG"`, PNG otherwise), compute the
output page dimensions from the pixmap's pixel dimensions via `* 72.0 / dpi`,
and append a new page of exactly that size carrying the encoded image over
its full rectangle. -/
def flattenPage (pg : Page) (dpi : Nat) (image_format : String)
    (jpeg_quality : Nat) : Except FlattenErr OutPage :=
  match Fitz.get_pixmap pg (flatten_matrix dpi) with
  | .error e => .error e
  | .ok pix =>
    match (if image_format = "JPEG" then Fitz.tobytes_jpeg pix jpeg_quality
           else Fitz.tobytes_png pix) with
    | .error e => .error e
    | .ok image_bytes =>
      let page_width : ℚ := (pix.width : ℚ) * 72 / (dpi : ℚ)
      let page_height : ℚ := (pix.height : ℚ) * 72 / (dpi : ℚ)
      .ok { width := page_width, height := page_height,
            rect := (0, 0, page_width, page_height), image := image_bytes }

/-- The inner `for page in src_doc` loop of `flatten_pdfs`, threading the
output document's page list and the running `total_pages` counter. -/
def flattenPagesLoop (dpi : Nat) (image_format : String) (jpeg_quality : Nat) :
    List Page → List OutPage → Nat → Except FlattenErr (List OutPage × Nat)
  | [], acc, total_pages => .ok (acc, total_pages)
  | pg :: rest, acc, total_pages =>
    match flattenPage pg dpi image_format jpeg_quality with
    | .error e => .error e
    | .ok new_page =>
      flattenPagesLoop dpi image_format jpeg_quality rest
        (acc ++ [new_page]) (total_pages + 1)

/-- The outer `for entry in file_entries` loop of `flatten_pdfs`: each
entry's bytes are opened with `fitz.open(stream=entry["data"])` (an exception
propagates) and its pages are processed in order. -/
def flattenDocs (parse : PdfParse) (dpi : Nat) (image_format : String)
    (jpeg_quality : Nat) :
    List Entry → List OutPage → Nat → Except FlattenErr (List OutPage × Nat)
  | [], acc, total_pages => .ok (acc, total_pages)
  | entry :: rest, acc, total_pages =>
    match parse entry.data with
    | .error exc => .error (.openError exc)
    | .ok src_doc =>
      match flattenPagesLoop dpi image_format jpeg_quality src_doc.pages
          acc total_pages with
      | .error e => .error e
      | .ok (acc', total') =>
        flattenDocs parse dpi image_format jpeg_quality rest acc' total'

/-- `flatten_pdfs` of `src/app.py` (lines 278-302): process every entry's
every page in order into the output document, then serialize it
(`output_doc.tobytes()`) and return the bytes together with `total_pages`. -/
def flatten_pdfs (parse : PdfParse) (file_entries : List Entry) (dpi : Nat)
    (image_format : String) (jpeg_quality : Nat) :
    Except FlattenErr (List OutPage × Nat) :=
  match flattenDocs parse dpi image_format jpeg_quality file_entries [] 0 with
  | .error e => .error e
  | .ok (pages, total_pages) =>
    match pdf_tobytes pages with
    | .error e => .error e
    | .ok output_bytes => .ok (output_bytes, total_pages)

/-- Explicit engine input state for `flatten_pdfs` of `src/app.py`: the
`file_entries` list and the three render parameters. Used to express that the
engine performs no in-place mutation of its inputs: the state-threaded
variant of the engine below carries this record through every loop iteration
and returns it alongside the result. -/
structure EngineArgs where
  file_entries : List Entry
  dpi : Nat
  image_format : String
  jpeg_quality : Nat
deriving DecidableEq, Repr

/-- State-threaded variant of the outer document loop of `flatten_pdfs`
(src/app.py): identical traversal, but the engine's input state is carried
through every iteration (each iteration reads the render parameters from it)
and returned, so that the absence of in-place mutation of the inputs is an
explicit property of the embedding rather than an implicit one. -/
def flattenDocsFr (parse : PdfParse) :
    List Entry → EngineArgs → List OutPage → Nat →
    Except FlattenErr (List OutPage × Nat) × EngineArgs
  | [], args, acc, total_pages => (.ok (acc, total_pages), args)
  | entry :: rest, args, acc, total_pages =>
    match parse entry.data with
    | .error exc => (.error (.openError exc), args)
    | .ok src_doc =>
      match flattenPagesLoop args.dpi args.image_format args.jpeg_quality
          src_doc.pages acc total_pages with
      | .error e => (.error e, args)
      | .ok (acc', total') => flattenDocsFr parse rest args acc' total'

/-- State-threaded variant of `flatten_pdfs` of `src/app.py`: returns the
merge result together with the engine's input state after the call. -/
def flatten_pdfs_fr (parse : PdfParse) (args : EngineArgs) :
    Except FlattenErr (List OutPage × Nat) × EngineArgs :=
  match flattenDocsFr parse args.file_entries args [] 0 with
  | (.error e, args') => (.error e, args')
  | (.ok (pages, total_pages), args') =>
    match pdf_tobytes pages with
    | .error e => (.error e, args')
    | .ok output_bytes => (.ok (output_bytes, total_pages), args')

end App

namespace StreamlitApp

/-- Loop body sequence of `cache_uploaded_files` in `src/streamlit_app.py`
(lines 122-141): same shape as the `src/app.py` version, except that the
source never adds the new checksum to `existing_hashes` inside the loop, so
the membership test is always against the hashes captured before the batch
started. -/
def cacheLoop (parse : PdfParse) (existing_hashes : List Bytes) :
    List (String × Upload) → List Entry → List RegisterOutcome × List Entry
  | [], st => ([], st)
  | (id, uploaded) :: rest, st =>
    let file_bytes := uploaded.data
    let checksum := sha1_hexdigest file_bytes
    if checksum ∈ existing_hashes then
      let (outs, st') := cacheLoop parse existing_hashes rest st
      (.duplicate :: outs, st')
    else
      match parse file_bytes with
      | .error exc =>
        let (outs, st') := cacheLoop parse existing_hashes rest st
        (.invalid exc :: outs, st')
      | .ok doc =>
        let entry : Entry :=
          { id := id, name := uploaded.name, data := file_bytes,
            checksum := checksum, pages := doc.pages.length,
            size := file_bytes.length }
        let (outs, st') := cacheLoop parse existing_hashes rest (st ++ [entry])
        (.registered :: outs, st')

/-- `cache_uploaded_files` of `src/streamlit_app.py`: `existing_hashes` is
computed once from the current `st.session_state` and never updated during
the batch. -/
def cache_uploaded_files (parse : PdfParse) (ids : List String)
    (uploaded_files : List Upload) (st : List Entry) :
    List RegisterOutcome × List Entry :=
  cacheLoop parse (st.map (·.checksum)) (ids.zip uploaded_files) st

/-- The fixed DPI `dpi = 200` hard-coded in `flatten_pdfs` of
`src/streamlit_app.py` (line 150). -/
def dpi : Nat := 200

/-- The fixed JPEG quality `jpeg_quality = 85` hard-coded in `flatten_pdfs`
of `src/streamlit_app.py` (line 152). -/
def jpeg_quality : Nat := 85

/-- The matrix `fitz.Matrix(dpi / 72.0, dpi / 72.0)` of
`src/streamlit_app.py` line 151, with the hard-coded `dpi = 200`. -/
def flatten_matrix : Fitz.Mat :=
  Fitz.Matrix_scale ((dpi : ℚ) / 72) ((dpi : ℚ) / 72)

/-- The per-page body of `flatten_pdfs` in `src/streamlit_app.py` (lines
157-165): always JPEG at the fixed quality, dimensions recomputed from the
pixmap exactly as in `src/app.py`. -/
def flattenPage (pg : Page) : Except FlattenErr OutPage :=
  match Fitz.get_pixmap pg flatten_matrix with
  | .error e => .error e
  | .ok pix =>
    match Fitz.tobytes_jpeg pix jpeg_quality with
    | .error e => .error e
    | .ok image_bytes =>
      let page_width : ℚ := (pix.width : ℚ) * 72 / (dpi : ℚ)
      let page_height : ℚ := (pix.height : ℚ) * 72 / (dpi : ℚ)
      .ok { width := page_width, height := page_height,
            rect := (0, 0, page_width, page_height), image := image_bytes }

/-- The inner `for page in src_doc` loop of `flatten_pdfs` in
`src/streamlit_app.py`; this version keeps no page counter. -/
def flattenPagesLoop :
    List Page → List OutPage → Except FlattenErr (List OutPage)
  | [], acc => .ok acc
  | pg :: rest, acc =>
    match flattenPage pg with
    | .error e => .error e
    | .ok new_page => flattenPagesLoop rest (acc ++ [new_page])

/-- The outer `for entry in file_entries` loop of `flatten_pdfs` in
`src/streamlit_app.py`. -/
def flattenDocs (parse : PdfParse) :
    List Entry → List OutPage → Except FlattenErr (List OutPage)
  | [], acc => .ok acc
  | entry :: rest, acc =>
    match parse entry.data with
    | .error exc => .error (.openError exc)
    | .ok src_doc =>
      match flattenPagesLoop src_doc.pages acc with
      | .error e => .error e
      | .ok acc' => flattenDocs parse rest acc'

/-- `flatten_pdfs` of `src/streamlit_app.py` (lines 143-167): fixed render
parameters, returns only the serialized output bytes. -/
def flatten_pdfs (parse : PdfParse) (file_entries : List Entry) :
    Except FlattenErr (List OutPage) :=
  match flattenDocs parse file_entries [] with
  | .error e => .error e
  | .ok pages => pdf_tobytes pages

/-- State-threaded variant of the document loop of `flatten_pdfs` in
`src/streamlit_app.py`: the input entry list is carried through every
iteration and returned, expressing the absence of in-place mutation. -/
def flattenDocsFr (parse : PdfParse) :
    List Entry → List Entry → List OutPage →
    Except FlattenErr (List OutPage) × List Entry
  | [], input, acc => (.ok acc, input)
  | entry :: rest, input, acc =>
    match parse entry.data with
    | .error exc => (.error (.openError exc), input)
    | .ok src_doc =>
      match flattenPagesLoop src_doc.pages acc with
      | .error e => (.error e, input)
      | .ok acc' => flattenDocsFr parse rest input acc'

/-- State-threaded variant of `flatten_pdfs` of `src/streamlit_app.py`. -/
def flatten_pdfs_fr (parse : PdfParse) (file_entries : List Entry) :
    Except FlattenErr (List OutPage) × List Entry :=
  match flattenDocsFr parse file_entries file_entries [] with
  | (.error e, input) => (.error e, input)
  | (.ok pages, input) => (pdf_tobytes pages, input)

end StreamlitApp

/-- Well-formedness of a registry state reachable through the registration
path: every entry's stored checksum is the digest of its stored content, and
every entry's content opens successfully as a PDF (entries are appended only
after `fitz.open` succeeded on their bytes). -/
def registry_wf (parse : PdfParse) (st : List Entry) : Prop :=
  ∀ e ∈ st, e.checksum = sha1_hexdigest e.data ∧ (parse e.data).isOk

/-- The page count of a byte string: the number of pages of the document it
parses to, `0` if it does not parse. -/
def pdf_page_count (parse : PdfParse) (b : Bytes) : Nat :=
  match parse b with
  | .ok doc => doc.pages.length
  | .error _ => 0

/-! ### Concrete fixtures used by witnesses and counterexamples -/

namespace Ex

/-- A page that renders and encodes without error; 72 points square so that
the arithmetic at 72 DPI is exact. -/
def pgGood : Page :=
  { widthPts := 72, heightPts := 72, content := 11,
    renderErr := none, encodeErr := none }

/-- A page on which `Page.get_pixmap` raises an exception with cause `7`. -/
def pgBad : Page :=
  { widthPts := 72, heightPts := 72, content := 22,
    renderErr := some 7, encodeErr := none }

/-- A one-page document that renders cleanly. -/
def docGood : Pdf := ⟨[pgGood]⟩

/-- A one-page document whose single page fails to rasterize. -/
def docBad : Pdf := ⟨[pgBad]⟩

/-- A concrete external-parser behaviour: the bytes `[1]` are a valid
one-page PDF; everything else (including the empty byte string) fails to
open with cause `0`. -/
def parse1 : PdfParse := fun b =>
  if b = [1] then .ok docGood else .error 0

/-- A concrete external-parser behaviour with a second, corrupt document:
`[1]` opens as a clean one-page document, `[2]` opens as a one-page document
whose page fails to rasterize, and everything else fails to open. -/
def parse2 : PdfParse := fun b =>
  if b = [1] then .ok docGood
  else if b = [2] then .ok docBad
  else .error 0

/-- A registered entry holding the clean document `[1]`. -/
def entryGood : Entry :=
  { id := "id-1", name := "good.pdf", data := [1], checksum := [1],
    pages := 1, size := 1 }

/-- A registered entry holding the corrupt document `[2]`. -/
def entryBad : Entry :=
  { id := "id-2", name := "bad.pdf", data := [2], checksum := [2],
    pages := 1, size := 1 }

/-- Two distinct entries whose display labels coincide: same name, same page
count, and the same first four characters of their ids. -/
def eDup1 : Entry :=
  { id := "aaaa1111", name := "form.pdf", data := [1], checksum := [1],
    pages := 1, size := 1 }

/-- Second entry of the colliding-label pair; distinct from `eDup1` (the ids
differ beyond the fourth character) but with the same display label. -/
def eDup2 : Entry :=
  { id := "aaaa2222", name := "form.pdf", data := [3], checksum := [3],
    pages := 1, size := 1 }

/-- A third entry with a display label distinct from the colliding pair,
so that a non-identity permutation of the label sequence exists. -/
def eDup3 : Entry :=
  { id := "bbbb3333", name := "annex.pdf", data := [4], checksum := [4],
    pages := 2, size := 1 }

/-- Concrete result of flattening the single clean one-page document at
72 DPI, used by the page-count witness. -/
def res1 : List OutPage × Nat :=
  (App.flatten_pdfs parse1 [entryGood] 72 "JPEG" 85).toOption.getD ([], 0)

/-- A second clean entry with a distinct display label, used by the
order-preservation witness. -/
def entryGood2 : Entry :=
  { id := "id-3", name := "other.pdf", data := [1], checksum := [1],
    pages := 1, size := 1 }

/-- Concrete result of flattening the two clean entries in swapped order at
72 DPI, used by the order-preservation witness. -/
def res2 : List OutPage × Nat :=
  (App.flatten_pdfs parse1
    (App.apply_reorder [entryGood, entryGood2]
      [App.display_label entryGood2, App.display_label entryGood])
    72 "JPEG" 85).toOption.getD ([], 0)

/-- Concrete output page produced by flattening the clean page at 72 DPI,
used by the page-sizing witness. -/
def op1 : OutPage :=
  (App.flattenPage pgGood 72 "JPEG" 85).toOption.getD
    { width := 0, height := 0, rect := (0, 0, 0, 0),
      image := { codec := "", quality := none, w := 0, h := 0, content := 0 } }

end Ex

/-- The list of output pages contributed by one entry when every page of the
entry renders successfully: the pages of the parsed document, each flattened
through the per-page body (pages whose rendering fails contribute nothing;
under a success hypothesis this is exactly all of them, in page order). -/
def App.docOutPages (parse : PdfParse) (dpi : Nat) (image_format : String)
    (jpeg_quality : Nat) (entry : Entry) : List OutPage :=
  match parse entry.data with
  | .error _ => []
  | .ok src =>
    src.pages.filterMap
      (fun pg => (App.flattenPage pg dpi image_format jpeg_quality).toOption)

/-- An entry all of whose pages render and encode successfully: its bytes
open as a PDF and the per-page body succeeds on each of its pages. -/
def App.entry_renders_ok (parse : PdfParse) (dpi : Nat)
    (image_format : String) (jpeg_quality : Nat) (entry : Entry) : Prop :=
  ∃ src, parse entry.data = .ok src ∧
    ∀ pg ∈ src.pages,
      (App.flattenPage pg dpi image_format jpeg_quality).isOk = true

/-! ### C3: empty-input rejection -/

/-- Claim C3: for every choice of render parameters (and every behaviour of
the external parser), invoking the flatten-merge engine on an empty document
list always fails — the serialization of the empty output document raises
the zero-pages error — and produces no output bytes; no rendering work is
performed (the document loop is a no-op on the empty list).  This holds for
both `src/app.py` and `src/streamlit_app.py`. -/
theorem flatten_empty_input_rejected (parse : PdfParse) (dpi : Nat)
    (image_format : String) (jpeg_quality : Nat) :
    App.flatten_pdfs parse [] dpi image_format jpeg_quality
      = .error .saveZeroPages ∧
    StreamlitApp.flatten_pdfs parse [] = .error .saveZeroPages ∧
    App.flattenDocs parse dpi image_format jpeg_quality [] [] 0 = .ok ([], 0) ∧
    StreamlitApp.flattenDocs parse [] [] = .ok [] :=
  ⟨rfl, rfl, rfl, rfl⟩

/-! ### C8: uniform rasterization transform -/

/-- Claim C8: the rasterization matrix built once by `flatten_pdfs` and used
for every page scales both coordinates by the single factor `dpi / 72`: its
application multiplies each axis by the same factor, its off-diagonal
(shear/rotation) entries are zero, its two diagonal entries are equal, and
the matrix of `src/streamlit_app.py` is the same matrix at its hard-coded
DPI. -/
theorem flatten_matrix_uniform_scale (dpi : Nat) (x y : ℚ) :
    Fitz.mat_apply (App.flatten_matrix dpi) x y
      = (((dpi : ℚ) / 72) * x, ((dpi : ℚ) / 72) * y) ∧
    (App.flatten_matrix dpi).a = (App.flatten_matrix dpi).d ∧
    (App.flatten_matrix dpi).b = 0 ∧
    (App.flatten_matrix dpi).c = 0 ∧
    (App.flatten_matrix dpi).a = (dpi : ℚ) / 72 ∧
    StreamlitApp.flatten_matrix = App.flatten_matrix StreamlitApp.dpi := by
  refine ⟨?_, rfl, rfl, rfl, rfl, rfl⟩
  simp [Fitz.mat_apply, App.flatten_matrix, Fitz.Matrix_scale]

/-! ### C1: the same-batch duplicate bug in `src/streamlit_app.py` -/

/-- Claim C1 (failing evaluation): `cache_uploaded_files` of
`src/streamlit_app.py`, called on an empty registry with a batch of two
uploads carrying identical valid PDF bytes, appends *both* — the registry
ends with two entries sharing the same `contentHash` — because the loop
never adds the freshly seen checksum to `existing_hashes`.  The same call on
the `src/app.py` implementation registers exactly one entry. -/
theorem streamlit_same_batch_duplicate_registered :
    (StreamlitApp.cache_uploaded_files Ex.parse1 ["id-1", "id-2"]
        [{ name := "dupA.pdf", data := [1] }, { name := "dupB.pdf", data := [1] }]
        []).2.map (fun e => e.checksum) = [[1], [1]] ∧
    (StreamlitApp.cache_uploaded_files Ex.parse1 ["id-1", "id-2"]
        [{ name := "dupA.pdf", data := [1] }, { name := "dupB.pdf", data := [1] }]
        []).1 = [.registered, .registered] ∧
    (App.cache_uploaded_files Ex.parse1 ["id-1", "id-2"]
        [{ name := "dupA.pdf", data := [1] }, { name := "dupB.pdf", data := [1] }]
        []).2.map (fun e => e.checksum) = [[1]] ∧
    (App.cache_uploaded_files Ex.parse1 ["id-1", "id-2"]
        [{ name := "dupA.pdf", data := [1] }, { name := "dupB.pdf", data := [1] }]
        []).1 = [.registered, .duplicate] := by
  decide

/-! ### C9: the engine does not mutate its inputs -/

theorem App_flattenDocsFr_eq (parse : PdfParse) (args : App.EngineArgs) :
    ∀ (l : List Entry) (acc : List OutPage) (t : Nat),
      App.flattenDocsFr parse l args acc t =
        (App.flattenDocs parse args.dpi args.image_format args.jpeg_quality
          l acc t, args) := by
  intro l
  induction l with
  | nil => intro acc t; rfl
  | cons e rest ih =>
    intro acc t
    cases hp : parse e.data with
    | error c => simp only [App.flattenDocsFr, App.flattenDocs, hp]
    | ok src =>
      simp only [App.flattenDocsFr, App.flattenDocs, hp]
      cases hl : App.flattenPagesLoop args.dpi args.image_format
          args.jpeg_quality src.pages acc t with
      | error e2 => rfl
      | ok p =>
        obtain ⟨a, b⟩ := p
        exact ih a b

theorem SL_flattenDocsFr_eq (parse : PdfParse) (input : List Entry) :
    ∀ (l : List Entry) (acc : List OutPage),
      StreamlitApp.flattenDocsFr parse l input acc =
        (StreamlitApp.flattenDocs parse l acc, input) := by
  intro l
  induction l with
  | nil => intro acc; rfl
  | cons e rest ih =>
    intro acc
    cases hp : parse e.data with
    | error c => simp only [StreamlitApp.flattenDocsFr, StreamlitApp.flattenDocs, hp]
    | ok src =>
      simp only [StreamlitApp.flattenDocsFr, StreamlitApp.flattenDocs, hp]
      cases hl : StreamlitApp.flattenPagesLoop src.pages acc with
      | error e2 => rfl
      | ok acc' => exact ih acc'

/-- Claim C9: the flatten-merge engine performs no in-place mutation of its
inputs.  The state-threaded variants of both engines, which carry the input
document list and the render parameters through every loop iteration, return
them unchanged on every input and every parser behaviour, and compute
exactly the same result as the plain engines. -/
theorem flatten_inputs_unchanged (parse : PdfParse) (args : App.EngineArgs)
    (file_entries : List Entry) :
    (App.flatten_pdfs_fr parse args).2 = args ∧
    (App.flatten_pdfs_fr parse args).1 =
      App.flatten_pdfs parse args.file_entries args.dpi args.image_format
        args.jpeg_quality ∧
    (StreamlitApp.flatten_pdfs_fr parse file_entries).2 = file_entries ∧
    (StreamlitApp.flatten_pdfs_fr parse file_entries).1 =
      StreamlitApp.flatten_pdfs parse file_entries := by
  have happ : App.flatten_pdfs_fr parse args =
      (App.flatten_pdfs parse args.file_entries args.dpi args.image_format
        args.jpeg_quality, args) := by
    cases hd : App.flattenDocs parse args.dpi args.image_format
        args.jpeg_quality args.file_entries [] 0 with
    | error e =>
      simp only [App.flatten_pdfs_fr, App.flatten_pdfs, App_flattenDocsFr_eq, hd]
    | ok p =>
      obtain ⟨pages, total⟩ := p
      cases ht : pdf_tobytes pages with
      | error e =>
        simp only [App.flatten_pdfs_fr, App.flatten_pdfs, App_flattenDocsFr_eq,
          hd, ht]
      | ok out =>
        simp only [App.flatten_pdfs_fr, App.flatten_pdfs, App_flattenDocsFr_eq,
          hd, ht]
  have hsl : StreamlitApp.flatten_pdfs_fr parse file_entries =
      (StreamlitApp.flatten_pdfs parse file_entries, file_entries) := by
    cases hd : StreamlitApp.flattenDocs parse file_entries [] with
    | error e =>
      simp only [StreamlitApp.flatten_pdfs_fr, StreamlitApp.flatten_pdfs,
        SL_flattenDocsFr_eq, hd]
    | ok pages =>
      simp only [StreamlitApp.flatten_pdfs_fr, StreamlitApp.flatten_pdfs,
        SL_flattenDocsFr_eq, hd]
  exact ⟨by rw [happ], by rw [happ], by rw [hsl], by rw [hsl]⟩

/-! ### C10: the fixed-parameter engine is the configurable one specialized -/

theorem SL_flattenPage_eq (pg : Page) :
    StreamlitApp.flattenPage pg = App.flattenPage pg 200 "JPEG" 85 := rfl

theorem SL_flattenPagesLoop_eq :
    ∀ (pgs : List Page) (acc : List OutPage) (t : Nat),
      StreamlitApp.flattenPagesLoop pgs acc =
        (App.flattenPagesLoop 200 "JPEG" 85 pgs acc t).map Prod.fst := by
  intro pgs
  induction pgs with
  | nil => intro acc t; rfl
  | cons pg rest ih =>
    intro acc t
    cases hp : App.flattenPage pg 200 "JPEG" 85 with
    | error e =>
      simp only [StreamlitApp.flattenPagesLoop, App.flattenPagesLoop,
        SL_flattenPage_eq, hp]
      rfl
    | ok op =>
      simp only [StreamlitApp.flattenPagesLoop, App.flattenPagesLoop,
        SL_flattenPage_eq, hp]
      exact ih (acc ++ [op]) (t + 1)

theorem SL_flattenDocs_eq (parse : PdfParse) :
    ∀ (l : List Entry) (acc : List OutPage) (t : Nat),
      StreamlitApp.flattenDocs parse l acc =
        (App.flattenDocs parse 200 "JPEG" 85 l acc t).map Prod.fst := by
  intro l
  induction l with
  | nil => intro acc t; rfl
  | cons e rest ih =>
    intro acc t
    cases hp : parse e.data with
    | error c => simp only [StreamlitApp.flattenDocs, App.flattenDocs, hp]; rfl
    | ok src =>
      simp only [StreamlitApp.flattenDocs, App.flattenDocs, hp]
      rw [SL_flattenPagesLoop_eq src.pages acc t]
      cases hl : App.flattenPagesLoop 200 "JPEG" 85 src.pages acc t with
      | error e2 => rfl
      | ok p =>
        obtain ⟨a, b⟩ := p
        exact ih a b

/-- Claim C10: for every list of file entries and every behaviour of the
external parser, `flatten_pdfs` of `src/streamlit_app.py` returns exactly
the output bytes that the first component of
`flatten_pdfs(entries, 200, "JPEG", 85)` of `src/app.py` returns (and they
fail with the same exception whenever they fail): the fixed-parameter engine
is the configurable engine specialized to DPI 200, JPEG, quality 85. -/
theorem streamlit_flatten_is_app_flatten_specialized (parse : PdfParse)
    (file_entries : List Entry) :
    StreamlitApp.flatten_pdfs parse file_entries =
      (App.flatten_pdfs parse file_entries 200 "JPEG" 85).map Prod.fst := by
  cases hd : App.flattenDocs parse 200 "JPEG" 85 file_entries [] 0 with
  | error e =>
    simp only [StreamlitApp.flatten_pdfs, App.flatten_pdfs,
      SL_flattenDocs_eq parse file_entries [] 0, hd]
    rfl
  | ok p =>
    obtain ⟨pages, total⟩ := p
    cases ht : pdf_tobytes pages with
    | error e =>
      simp only [StreamlitApp.flatten_pdfs, App.flatten_pdfs,
        SL_flattenDocs_eq parse file_entries [] 0, hd, ht, Except.map]
    | ok out =>
      simp only [StreamlitApp.flatten_pdfs, App.flatten_pdfs,
        SL_flattenDocs_eq parse file_entries [] 0, hd, ht, Except.map]

/-! ### C2: page-count conservation -/

theorem App_flattenPagesLoop_count (dpi : Nat) (image_format : String)
    (jpeg_quality : Nat) :
    ∀ (pgs : List Page) (acc : List OutPage) (t : Nat) (acc' : List OutPage)
      (t' : Nat),
      App.flattenPagesLoop dpi image_format jpeg_quality pgs acc t
        = .ok (acc', t') → t' = t + pgs.length := by
  intro pgs
  induction pgs with
  | nil =>
    intro acc t acc' t' h
    simp only [App.flattenPagesLoop] at h
    cases h
    simp
  | cons pg rest ih =>
    intro acc t acc' t' h
    cases hp : App.flattenPage pg dpi image_format jpeg_quality with
    | error e =>
      simp only [App.flattenPagesLoop, hp] at h
      exact Except.noConfusion h
    | ok op =>
      simp only [App.flattenPagesLoop, hp] at h
      have := ih (acc ++ [op]) (t + 1) acc' t' h
      simp only [List.length_cons]
      omega

theorem App_flattenDocs_count (parse : PdfParse) (dpi : Nat)
    (image_format : String) (jpeg_quality : Nat) :
    ∀ (entries : List Entry) (acc : List OutPage) (t : Nat)
      (acc' : List OutPage) (t' : Nat),
      App.flattenDocs parse dpi image_format jpeg_quality entries acc t
        = .ok (acc', t') →
      t' = t + (entries.map (fun e => pdf_page_count parse e.data)).sum := by
  intro entries
  induction entries with
  | nil =>
    intro acc t acc' t' h
    simp only [App.flattenDocs] at h
    cases h
    simp
  | cons e rest ih =>
    intro acc t acc' t' h
    cases hp : parse e.data with
    | error c =>
      simp only [App.flattenDocs, hp] at h
      exact Except.noConfusion h
    | ok src =>
      simp only [App.flattenDocs, hp] at h
      cases hl : App.flattenPagesLoop dpi image_format jpeg_quality src.pages
          acc t with
      | error e2 =>
        rw [hl] at h
        exact Except.noConfusion h
      | ok p =>
        obtain ⟨a, b⟩ := p
        rw [hl] at h
        have hb := App_flattenPagesLoop_count dpi image_format jpeg_quality
          src.pages acc t a b hl
        have hrest := ih a b acc' t' h
        have hpc : pdf_page_count parse e.data = src.pages.length := by
          simp [pdf_page_count, hp]
        simp only [List.map_cons, List.sum_cons, hpc]
        omega

/-- Claim C2: whenever `flatten_pdfs` of `src/app.py` returns a result on a
non-empty list of input documents (any render parameters, any behaviour of
the external parser), the returned `total_pages` equals the sum of the page
counts of all input documents, in order. -/
theorem flatten_total_pages_conserved (parse : PdfParse)
    (file_entries : List Entry) (dpi : Nat) (image_format : String)
    (jpeg_quality : Nat) (r : List OutPage × Nat)
    (hne : file_entries ≠ [])
    (h : App.flatten_pdfs parse file_entries dpi image_format jpeg_quality
      = .ok r) :
    r.2 = (file_entries.map (fun e => pdf_page_count parse e.data)).sum := by
  cases hd : App.flattenDocs parse dpi image_format jpeg_quality file_entries
      [] 0 with
  | error e =>
    simp only [App.flatten_pdfs, hd] at h
    exact Except.noConfusion h
  | ok p =>
    obtain ⟨pages, total⟩ := p
    simp only [App.flatten_pdfs, hd] at h
    cases ht : pdf_tobytes pages with
    | error e =>
      rw [ht] at h
      exact Except.noConfusion h
    | ok out =>
      rw [ht] at h
      cases h
      have := App_flattenDocs_count parse dpi image_format jpeg_quality
        file_entries [] 0 pages total hd
      simpa using this

/-- Witness for claim C2 at a concrete input: one registered clean document,
72 DPI, JPEG at quality 85. -/
theorem flatten_total_pages_conserved_witness :
    [Ex.entryGood] ≠ [] ∧
    App.flatten_pdfs Ex.parse1 [Ex.entryGood] 72 "JPEG" 85 = .ok Ex.res1 ∧
    Ex.res1.2 =
      ([Ex.entryGood].map (fun e => pdf_page_count Ex.parse1 e.data)).sum :=
  ⟨by decide, by rfl,
    flatten_total_pages_conserved Ex.parse1 [Ex.entryGood] 72 "JPEG" 85
      Ex.res1 (by decide) (by rfl)⟩

/-! ### C4: invalid input is rejected and the registry is untouched -/

/-- On a well-formed registry state, the digest of bytes that fail to open
as a PDF cannot be among the stored checksums. -/
theorem invalid_hash_not_in_registry (parse : PdfParse) (st : List Entry)
    (b : Bytes) (c : Nat) (hwf : registry_wf parse st)
    (hbad : parse b = .error c) :
    sha1_hexdigest b ∉ st.map (·.checksum) := by
  intro hmem
  obtain ⟨e, he, hchk⟩ := List.mem_map.1 hmem
  obtain ⟨hdig, hok⟩ := hwf e he
  have hdata : e.data = b := by
    have : e.data = sha1_hexdigest b := by rw [← hchk, hdig]; rfl
    simpa [sha1_hexdigest] using this
  rw [hdata, hbad] at hok
  simp [Except.isOk, Except.toBool] at hok

/-- Claim C4: registering a byte sequence that does not open as a PDF
(zero-length, non-PDF, or an unopenable PDF — i.e. any bytes on which
`fitz.open` raises) against a well-formed registry resolves to the
per-file `Invalid` outcome carrying the underlying cause, appends no entry,
and leaves the registry sequence — hence its length and contents — exactly
unchanged, in both `src/app.py` and `src/streamlit_app.py`. -/
theorem register_invalid_rejected_registry_unchanged (parse : PdfParse)
    (st : List Entry) (id : String) (uploaded : Upload) (c : Nat)
    (hwf : registry_wf parse st) (hbad : parse uploaded.data = .error c) :
    App.cache_uploaded_files parse [id] [uploaded] st = ([.invalid c], st) ∧
    StreamlitApp.cache_uploaded_files parse [id] [uploaded] st
      = ([.invalid c], st) := by
  have hmem := invalid_hash_not_in_registry parse st uploaded.data c hwf hbad
  constructor
  · simp only [App.cache_uploaded_files, List.zip, List.zipWith, App.cacheLoop,
      if_neg hmem, hbad]
  · simp only [StreamlitApp.cache_uploaded_files, List.zip, List.zipWith,
      StreamlitApp.cacheLoop, if_neg hmem, hbad]

/-- Witness for claim C4 at a concrete input: registering the empty byte
string (which fails to open, cause `0`) against the empty registry. -/
theorem register_invalid_rejected_witness :
    registry_wf Ex.parse1 [] ∧ Ex.parse1 [] = .error 0 ∧
    App.cache_uploaded_files Ex.parse1 ["id-9"]
      [{ name := "bad.bin", data := [] }] [] = ([.invalid 0], []) ∧
    StreamlitApp.cache_uploaded_files Ex.parse1 ["id-9"]
      [{ name := "bad.bin", data := [] }] [] = ([.invalid 0], []) := by
  have hwf : registry_wf Ex.parse1 [] := by
    intro e he
    exact absurd he (List.not_mem_nil e)
  have h := register_invalid_rejected_registry_unchanged Ex.parse1 []
    "id-9" { name := "bad.bin", data := [] } 0 hwf (by rfl)
  exact ⟨hwf, by rfl, h.1, h.2⟩

/-! ### C5: order preservation through reorder and flatten -/

theorem App_flattenPagesLoop_out (dpi : Nat) (image_format : String)
    (jpeg_quality : Nat) :
    ∀ (pgs : List Page) (acc : List OutPage) (t : Nat) (acc' : List OutPage)
      (t' : Nat),
      App.flattenPagesLoop dpi image_format jpeg_quality pgs acc t
        = .ok (acc', t') →
      acc' = acc ++ pgs.filterMap
        (fun pg => (App.flattenPage pg dpi image_format jpeg_quality).toOption) := by
  intro pgs
  induction pgs with
  | nil =>
    intro acc t acc' t' h
    simp only [App.flattenPagesLoop] at h
    cases h
    simp
  | cons pg rest ih =>
    intro acc t acc' t' h
    cases hp : App.flattenPage pg dpi image_format jpeg_quality with
    | error e =>
      simp only [App.flattenPagesLoop, hp] at h
      exact Except.noConfusion h
    | ok op =>
      simp only [App.flattenPagesLoop, hp] at h
      have := ih (acc ++ [op]) (t + 1) acc' t' h
      simp [this, List.filterMap_cons, hp, Except.toOption]

theorem App_flattenDocs_out (parse : PdfParse) (dpi : Nat)
    (image_format : String) (jpeg_quality : Nat) :
    ∀ (entries : List Entry) (acc : List OutPage) (t : Nat)
      (acc' : List OutPage) (t' : Nat),
      App.flattenDocs parse dpi image_format jpeg_quality entries acc t
        = .ok (acc', t') →
      acc' = acc ++ entries.flatMap
        (App.docOutPages parse dpi image_format jpeg_quality) := by
  intro entries
  induction entries with
  | nil =>
    intro acc t acc' t' h
    simp only [App.flattenDocs] at h
    cases h
    simp
  | cons e rest ih =>
    intro acc t acc' t' h
    cases hp : parse e.data with
    | error c =>
      simp only [App.flattenDocs, hp] at h
      exact Except.noConfusion h
    | ok src =>
      simp only [App.flattenDocs, hp] at h
      cases hl : App.flattenPagesLoop dpi image_format jpeg_quality src.pages
          acc t with
      | error e2 =>
        rw [hl] at h
        exact Except.noConfusion h
      | ok p =>
        obtain ⟨a, b⟩ := p
        rw [hl] at h
        have ha := App_flattenPagesLoop_out dpi image_format jpeg_quality
          src.pages acc t a b hl
        have hrest := ih a b acc' t' h
        simp [hrest, ha, List.flatMap_cons, App.docOutPages, hp]

/-- Whenever `flatten_pdfs` of `src/app.py` succeeds, its output pages are
exactly the per-document output page lists concatenated in document order,
each in page order. -/
theorem App_flatten_out (parse : PdfParse) (file_entries : List Entry)
    (dpi : Nat) (image_format : String) (jpeg_quality : Nat)
    (r : List OutPage × Nat)
    (h : App.flatten_pdfs parse file_entries dpi image_format jpeg_quality
      = .ok r) :
    r.1 = file_entries.flatMap
      (App.docOutPages parse dpi image_format jpeg_quality) := by
  cases hd : App.flattenDocs parse dpi image_format jpeg_quality file_entries
      [] 0 with
  | error e =>
    simp only [App.flatten_pdfs, hd] at h
    exact Except.noConfusion h
  | ok p =>
    obtain ⟨pages, total⟩ := p
    simp only [App.flatten_pdfs, hd] at h
    cases ht : pdf_tobytes pages with
    | error e =>
      rw [ht] at h
      exact Except.noConfusion h
    | ok out =>
      rw [ht] at h
      have hpg := App_flattenDocs_out parse dpi image_format jpeg_quality
        file_entries [] 0 pages total hd
      have hout : out = pages := by
        simp only [pdf_tobytes] at ht
        by_cases hemp : pages.isEmpty
        · rw [if_pos hemp] at ht
          exact Except.noConfusion ht
        · rw [if_neg hemp] at ht
          cases ht
          rfl
      cases h
      simpa [hout] using hpg

theorem filter_label_eq_nil (files : List Entry) (s : String)
    (h : s ∉ files.map App.display_label) :
    files.filter (fun entry => App.display_label entry = s) = [] := by
  rw [List.filter_eq_nil_iff]
  intro a ha
  simp only [decide_eq_true_eq]
  intro heq
  exact h (List.mem_map.2 ⟨a, ha, heq⟩)

theorem label_lookup_self (files : List Entry)
    (hnd : (files.map App.display_label).Nodup) :
    ∀ e ∈ files, App.label_lookup files (App.display_label e) = some e := by
  induction files with
  | nil => intro e he; exact absurd he (List.not_mem_nil e)
  | cons f rest ih =>
    have hf : App.display_label f ∉ rest.map App.display_label :=
      (List.nodup_cons.1 (by simpa using hnd)).1
    have hnd' : (rest.map App.display_label).Nodup :=
      (List.nodup_cons.1 (by simpa using hnd)).2
    intro e he
    rcases List.mem_cons.1 he with rfl | he'
    · unfold App.label_lookup
      rw [List.filter_cons_of_pos (by simp), filter_label_eq_nil rest _ hf]
      rfl
    · have hne : App.display_label f ≠ App.display_label e := by
        intro heq
        exact hf (heq ▸ List.mem_map.2 ⟨e, he', rfl⟩)
      unfold App.label_lookup
      rw [List.filter_cons_of_neg (by simpa using hne)]
      exact ih hnd' e he'

theorem filterMap_lookup_labels (files : List Entry)
    (hnd : (files.map App.display_label).Nodup) :
    ∀ reordered : List String,
      (∀ l ∈ reordered, l ∈ files.map App.display_label) →
      (reordered.filterMap (App.label_lookup files)).map App.display_label
        = reordered := by
  intro reordered
  induction reordered with
  | nil => intro _; rfl
  | cons l rest ih =>
    intro hmem
    obtain ⟨e, he, hl⟩ := List.mem_map.1 (hmem l (List.mem_cons_self l rest))
    have hlk : App.label_lookup files l = some e := hl ▸ label_lookup_self files hnd e he
    have hrest := ih (fun x hx => hmem x (List.mem_cons_of_mem l hx))
    simp only [List.filterMap_cons, hlk] at hrest ⊢
    simp [hrest, hl]

theorem filterMap_congr_id {α : Type} (f : α → Option α) :
    ∀ l : List α, (∀ e ∈ l, f e = some e) → l.filterMap f = l := by
  intro l
  induction l with
  | nil => intro _; rfl
  | cons a rest ih =>
    intro h
    rw [List.filterMap_cons, h a (List.mem_cons_self a rest),
      ih (fun e he => h e (List.mem_cons_of_mem a he))]

theorem filterMap_lookup_perm (files : List Entry) (reordered : List String)
    (hnd : (files.map App.display_label).Nodup)
    (hperm : reordered.Perm (files.map App.display_label)) :
    (reordered.filterMap (App.label_lookup files)).Perm files := by
  have h1 := hperm.filterMap (App.label_lookup files)
  rw [List.filterMap_map] at h1
  have h2 : files.filterMap (App.label_lookup files ∘ App.display_label)
      = files :=
    filterMap_congr_id _ files (fun e he => label_lookup_self files hnd e he)
  rw [h2] at h1
  exact h1

/-- Case analysis on the line-334 guard of the source's reorder: either the
label sequence is non-empty and differs from the current labels and the
mapping comprehension runs, or the registry is left unchanged — and in the
latter case a label sequence that is a permutation of the current labels is
necessarily equal to them. -/
theorem apply_reorder_cases (files : List Entry) (reordered : List String)
    (hperm : reordered.Perm (files.map App.display_label)) :
    App.apply_reorder files reordered
        = reordered.filterMap (App.label_lookup files) ∨
      (App.apply_reorder files reordered = files ∧
        reordered = files.map App.display_label) := by
  by_cases hg : reordered ≠ [] ∧ reordered ≠ files.map App.display_label
  · exact Or.inl (by simp only [App.apply_reorder, if_pos hg])
  · refine Or.inr ⟨by simp only [App.apply_reorder, if_neg hg], ?_⟩
    rcases not_and_or.1 hg with h0 | h0
    · have hnil : reordered = [] := not_not.1 h0
      subst hnil
      have hlab : files.map App.display_label = [] := hperm.symm.eq_nil
      exact hlab.symm
    · exact not_not.1 h0

/-- Claim C5 (amended): provided the display labels of the registry entries
are pairwise distinct, any permutation applied via the guarded label-keyed
reorder of `src/app.py` yields exactly that permutation of the same entries
(identical multiset, new order: the labels of the result are exactly the
reordered labels, and the result is a permutation of the registry — when the
applied sequence equals the current one the guard leaves the registry
unchanged, which *is* that permutation), and whenever `flatten_pdfs`
succeeds on the reordered sequence its output pages are the per-document
pages concatenated in exactly that (document order, page order) sequence. -/
theorem reorder_preserves_entries_and_page_order (parse : PdfParse)
    (files : List Entry) (reordered : List String) (dpi : Nat)
    (image_format : String) (jpeg_quality : Nat) (r : List OutPage × Nat)
    (hnd : (files.map App.display_label).Nodup)
    (hperm : reordered.Perm (files.map App.display_label)) :
    (App.apply_reorder files reordered).map App.display_label = reordered ∧
    (App.apply_reorder files reordered).Perm files ∧
    (App.flatten_pdfs parse (App.apply_reorder files reordered) dpi
        image_format jpeg_quality = .ok r →
      r.1 = (App.apply_reorder files reordered).flatMap
        (App.docOutPages parse dpi image_format jpeg_quality)) := by
  refine ⟨?_, ?_, fun h => App_flatten_out parse _ dpi image_format
    jpeg_quality r h⟩
  · rcases apply_reorder_cases files reordered hperm with heq | ⟨heq, hid⟩
    · rw [heq]
      exact filterMap_lookup_labels files hnd reordered
        (fun l hl => hperm.mem_iff.1 hl)
    · rw [heq]
      exact hid.symm
  · rcases apply_reorder_cases files reordered hperm with heq | ⟨heq, hid⟩
    · rw [heq]
      exact filterMap_lookup_perm files reordered hnd hperm
    · rw [heq]

/-- Witness for (amended) claim C5 at a concrete input: two clean entries
with distinct labels, swapped via reorder, flattened at 72 DPI. -/
theorem reorder_preserves_witness :
    (([Ex.entryGood, Ex.entryGood2].map App.display_label).Nodup ∧
      [App.display_label Ex.entryGood2, App.display_label Ex.entryGood].Perm
        ([Ex.entryGood, Ex.entryGood2].map App.display_label)) ∧
    (App.apply_reorder [Ex.entryGood, Ex.entryGood2]
        [App.display_label Ex.entryGood2, App.display_label Ex.entryGood]).map
      App.display_label
      = [App.display_label Ex.entryGood2, App.display_label Ex.entryGood] ∧
    (App.apply_reorder [Ex.entryGood, Ex.entryGood2]
        [App.display_label Ex.entryGood2, App.display_label Ex.entryGood]).Perm
      [Ex.entryGood, Ex.entryGood2] ∧
    Ex.res2.1 = (App.apply_reorder [Ex.entryGood, Ex.entryGood2]
        [App.display_label Ex.entryGood2, App.display_label Ex.entryGood]).flatMap
      (App.docOutPages Ex.parse1 72 "JPEG" 85) :=
  ⟨⟨by decide, by decide⟩,
   (reorder_preserves_entries_and_page_order Ex.parse1
     [Ex.entryGood, Ex.entryGood2]
     [App.display_label Ex.entryGood2, App.display_label Ex.entryGood]
     72 "JPEG" 85 Ex.res2 (by decide) (by decide)).1,
   (reorder_preserves_entries_and_page_order Ex.parse1
     [Ex.entryGood, Ex.entryGood2]
     [App.display_label Ex.entryGood2, App.display_label Ex.entryGood]
     72 "JPEG" 85 Ex.res2 (by decide) (by decide)).2.1,
   (reorder_preserves_entries_and_page_order Ex.parse1
     [Ex.entryGood, Ex.entryGood2]
     [App.display_label Ex.entryGood2, App.display_label Ex.entryGood]
     72 "JPEG" 85 Ex.res2 (by decide) (by decide)).2.2 (by rfl)⟩

/-- Claim C5 (counterexample to the claim as stated): a registry of three
entries, the first two distinct but sharing a display label `L` (same name,
same page count, same first four id characters), the third with a different
label `M`.  The label sequence `[L, M, L]` is a genuine non-identity
permutation of the current labels `[L, L, M]` (the sortable widget can
return it), so the line-334 guard passes and the mapping comprehension runs;
since the dict maps `L` to the *later* of the two entries, the result holds
two copies of the second entry and has lost the first — it is not a
permutation of the registry. -/
theorem reorder_label_collision_corrupts :
    [App.display_label Ex.eDup1, App.display_label Ex.eDup3,
        App.display_label Ex.eDup2].Perm
      ([Ex.eDup1, Ex.eDup2, Ex.eDup3].map App.display_label) ∧
    App.apply_reorder [Ex.eDup1, Ex.eDup2, Ex.eDup3]
        [App.display_label Ex.eDup1, App.display_label Ex.eDup3,
          App.display_label Ex.eDup2]
      = [Ex.eDup2, Ex.eDup3, Ex.eDup2] ∧
    ¬ (([Ex.eDup2, Ex.eDup3, Ex.eDup2] : List Entry).Perm
        [Ex.eDup1, Ex.eDup2, Ex.eDup3]) := by
  refine ⟨by decide, by decide, by decide⟩

/-! ### C6: a page failure aborts the whole merge -/

theorem App_flattenPagesLoop_ok_of_all (dpi : Nat) (image_format : String)
    (jpeg_quality : Nat) :
    ∀ (pgs : List Page) (acc : List OutPage) (t : Nat),
      (∀ x ∈ pgs, (App.flattenPage x dpi image_format jpeg_quality).isOk = true) →
      ∃ acc' t', App.flattenPagesLoop dpi image_format jpeg_quality pgs acc t
        = .ok (acc', t') := by
  intro pgs
  induction pgs with
  | nil => intro acc t _; exact ⟨acc, t, rfl⟩
  | cons pg rest ih =>
    intro acc t hall
    cases hp : App.flattenPage pg dpi image_format jpeg_quality with
    | error e =>
      have := hall pg (List.mem_cons_self pg rest)
      rw [hp] at this
      simp [Except.isOk, Except.toBool] at this
    | ok op =>
      obtain ⟨acc', t', hrest⟩ := ih (acc ++ [op]) (t + 1)
        (fun x hx => hall x (List.mem_cons_of_mem pg hx))
      exact ⟨acc', t', by simp only [App.flattenPagesLoop, hp]; exact hrest⟩

theorem App_flattenPagesLoop_err (dpi : Nat) (image_format : String)
    (jpeg_quality : Nat) (err : FlattenErr) :
    ∀ (p1 : List Page) (pg : Page) (p2 : List Page) (acc : List OutPage)
      (t : Nat),
      (∀ x ∈ p1, (App.flattenPage x dpi image_format jpeg_quality).isOk = true) →
      App.flattenPage pg dpi image_format jpeg_quality = .error err →
      App.flattenPagesLoop dpi image_format jpeg_quality (p1 ++ pg :: p2) acc t
        = .error err := by
  intro p1
  induction p1 with
  | nil =>
    intro pg p2 acc t _ hpg
    simp only [List.nil_append, App.flattenPagesLoop, hpg]
  | cons x rest ih =>
    intro pg p2 acc t hall hpg
    cases hx : App.flattenPage x dpi image_format jpeg_quality with
    | error e =>
      have := hall x (List.mem_cons_self x rest)
      rw [hx] at this
      simp [Except.isOk, Except.toBool] at this
    | ok op =>
      simp only [List.cons_append, App.flattenPagesLoop, hx]
      exact ih pg p2 (acc ++ [op]) (t + 1)
        (fun y hy => hall y (List.mem_cons_of_mem x hy)) hpg

theorem App_flattenDocs_err (parse : PdfParse) (dpi : Nat)
    (image_format : String) (jpeg_quality : Nat) (err : FlattenErr)
    (bad : Entry) (src : Pdf) (p1 : List Page) (pg : Page) (p2 : List Page)
    (hbad : parse bad.data = .ok src) (hsplit : src.pages = p1 ++ pg :: p2)
    (hp1 : ∀ x ∈ p1, (App.flattenPage x dpi image_format jpeg_quality).isOk = true)
    (hpg : App.flattenPage pg dpi image_format jpeg_quality = .error err) :
    ∀ (pre post : List Entry) (acc : List OutPage) (t : Nat),
      (∀ e ∈ pre, App.entry_renders_ok parse dpi image_format jpeg_quality e) →
      App.flattenDocs parse dpi image_format jpeg_quality (pre ++ bad :: post)
        acc t = .error err := by
  intro pre
  induction pre with
  | nil =>
    intro post acc t _
    simp only [List.nil_append, App.flattenDocs, hbad, hsplit]
    rw [App_flattenPagesLoop_err dpi image_format jpeg_quality err p1 pg p2
      acc t hp1 hpg]
  | cons e rest ih =>
    intro post acc t hpre
    obtain ⟨esrc, hesrc, hepages⟩ := hpre e (List.mem_cons_self e rest)
    obtain ⟨acc', t', hloop⟩ := App_flattenPagesLoop_ok_of_all dpi image_format
      jpeg_quality esrc.pages acc t hepages
    simp only [List.cons_append, App.flattenDocs, hesrc, hloop]
    exact ih post acc' t' (fun x hx => hpre x (List.mem_cons_of_mem e hx))

/-- Claim C6 (amended): if any page of any input document cannot be
rasterized or encoded — all documents before it render cleanly and it is the
first failing page of its document — then `flatten_pdfs` of `src/app.py`
aborts the entire merge with exactly the underlying exception as its error
and returns no output bytes.  The propagated error carries only the cause;
it does not identify the failing document index or page index. -/
theorem render_failure_aborts_merge (parse : PdfParse) (dpi : Nat)
    (image_format : String) (jpeg_quality : Nat) (err : FlattenErr)
    (pre post : List Entry) (bad : Entry) (src : Pdf) (p1 : List Page)
    (pg : Page) (p2 : List Page)
    (hpre : ∀ e ∈ pre, App.entry_renders_ok parse dpi image_format jpeg_quality e)
    (hbad : parse bad.data = .ok src) (hsplit : src.pages = p1 ++ pg :: p2)
    (hp1 : ∀ x ∈ p1, (App.flattenPage x dpi image_format jpeg_quality).isOk = true)
    (hpg : App.flattenPage pg dpi image_format jpeg_quality = .error err) :
    App.flatten_pdfs parse (pre ++ bad :: post) dpi image_format jpeg_quality
      = .error err := by
  have h := App_flattenDocs_err parse dpi image_format jpeg_quality err bad
    src p1 pg p2 hbad hsplit hp1 hpg pre post [] 0 hpre
  simp only [App.flatten_pdfs, h]

/-- Witness for (amended) claim C6 at a concrete input: one clean document
followed by the document whose page fails to rasterize with cause `7`. -/
theorem render_failure_aborts_witness :
    Ex.parse2 Ex.entryBad.data = .ok Ex.docBad ∧
    Ex.docBad.pages = [] ++ Ex.pgBad :: [] ∧
    App.flattenPage Ex.pgBad 72 "JPEG" 85 = .error (.pixmapError 7) ∧
    App.flatten_pdfs Ex.parse2 ([Ex.entryGood] ++ Ex.entryBad :: []) 72 "JPEG"
      85 = .error (.pixmapError 7) :=
  ⟨by rfl, by rfl, by rfl,
   render_failure_aborts_merge Ex.parse2 72 "JPEG" 85 (.pixmapError 7)
     [Ex.entryGood] [] Ex.entryBad Ex.docBad [] Ex.pgBad []
     (by
       intro e he
       have : e = Ex.entryGood := by simpa using he
       subst this
       exact ⟨Ex.docGood, rfl, by decide⟩)
     (by rfl) (by rfl) (by simp) (by rfl)⟩

/-- Claim C6 (counterexample to the claim as stated): the error with which
the merge fails does not identify the failing document index.  The corrupt
document alone (failing document index 0) and the same corrupt document
preceded by a clean one (failing document index 1) make `flatten_pdfs` fail
with the *same* error value, the bare underlying cause, so no document index
(nor page index) can be recovered from the failure. -/
theorem render_error_lacks_location :
    App.flatten_pdfs Ex.parse2 [Ex.entryBad] 72 "JPEG" 85
      = .error (.pixmapError 7) ∧
    App.flatten_pdfs Ex.parse2 [Ex.entryGood, Ex.entryBad] 72 "JPEG" 85
      = .error (.pixmapError 7) := by
  constructor
  · rfl
  · rfl

/-! ### C7: output page size comes from the bitmap, up to one pixel -/

theorem get_pixmap_scale_dims (pg : Page) (z : ℚ) (hz : 0 ≤ z)
    (hw : 0 ≤ pg.widthPts) (hh : 0 ≤ pg.heightPts) (hr : pg.renderErr = none) :
    Fitz.get_pixmap pg (Fitz.Matrix_scale z z) =
      .ok { width := (⌈z * pg.widthPts⌉).toNat,
            height := (⌈z * pg.heightPts⌉).toNat,
            content := pg.content, encodeErr := pg.encodeErr } := by
  have hzw : (0 : ℚ) ≤ z * pg.widthPts := mul_nonneg hz hw
  have hzh : (0 : ℚ) ≤ z * pg.heightPts := mul_nonneg hz hh
  simp only [Fitz.get_pixmap, hr, Fitz.Matrix_scale, mul_zero, zero_mul,
    add_zero, zero_add, min_self, max_self, min_eq_left hzw,
    max_eq_right hzw, min_eq_left hzh, max_eq_right hzh, Int.floor_zero,
    sub_zero]

theorem ceil_div_bounds (w z : ℚ) (hz : 0 < z) (hw : 0 ≤ w) :
    w ≤ ((⌈z * w⌉.toNat : ℚ)) / z ∧ ((⌈z * w⌉.toNat : ℚ)) / z < w + 1 / z := by
  have hzw : (0 : ℚ) ≤ z * w := mul_nonneg hz.le hw
  have hceil : (0 : ℤ) ≤ ⌈z * w⌉ := Int.ceil_nonneg hzw
  have hcast : ((⌈z * w⌉.toNat : ℚ)) = ((⌈z * w⌉ : ℤ) : ℚ) := by
    rw [← Int.cast_natCast, Int.toNat_of_nonneg hceil]
  constructor
  · rw [hcast, le_div_iff₀ hz]
    calc w * z = z * w := mul_comm w z
    _ ≤ (⌈z * w⌉ : ℚ) := Int.le_ceil (z * w)
  · rw [hcast, div_lt_iff₀ hz]
    have h1 : ((⌈z * w⌉ : ℤ) : ℚ) < z * w + 1 := Int.ceil_lt_add_one (z * w)
    have h2 : (w + 1 / z) * z = z * w + 1 := by
      field_simp
      ring
    rw [h2]
    exact h1

/-- Claim C7: the physical dimensions of every output page are computed from
the rasterized bitmap's pixel dimensions multiplied by `72 / dpi` (the exact
formula of the source), not re-derived from the source page's declared size,
and consequently they equal the source page's dimensions up to the
integer-pixel rounding of the intermediate bitmap: the output dimension is
at least the source dimension and exceeds it by strictly less than one
pixel, i.e. less than `72 / dpi` points. -/
theorem output_page_size_from_bitmap (pg : Page) (dpi : Nat)
    (image_format : String) (jpeg_quality : Nat) (op : OutPage)
    (hdpi : 0 < dpi) (hw : 0 ≤ pg.widthPts) (hh : 0 ≤ pg.heightPts)
    (hok : App.flattenPage pg dpi image_format jpeg_quality = .ok op) :
    op.width = (op.image.w : ℚ) * 72 / (dpi : ℚ) ∧
    op.height = (op.image.h : ℚ) * 72 / (dpi : ℚ) ∧
    pg.widthPts ≤ op.width ∧ op.width < pg.widthPts + 72 / (dpi : ℚ) ∧
    pg.heightPts ≤ op.height ∧ op.height < pg.heightPts + 72 / (dpi : ℚ) := by
  have hdq : (0 : ℚ) < (dpi : ℚ) := by exact_mod_cast hdpi
  have hz : (0 : ℚ) < (dpi : ℚ) / 72 := by positivity
  cases hr : pg.renderErr with
  | some c =>
    simp only [App.flattenPage, Fitz.get_pixmap, hr] at hok
    exact Except.noConfusion hok
  | none =>
    have hwb := ceil_div_bounds pg.widthPts ((dpi : ℚ) / 72) hz hw
    have hhb := ceil_div_bounds pg.heightPts ((dpi : ℚ) / 72) hz hh
    rw [div_div_eq_mul_div, one_div_div] at hwb hhb
    simp only [App.flattenPage, App.flatten_matrix,
      get_pixmap_scale_dims pg ((dpi : ℚ) / 72) hz.le hw hh hr] at hok
    cases he : pg.encodeErr with
    | some c =>
      by_cases hf : image_format = "JPEG"
      · simp only [if_pos hf, Fitz.tobytes_jpeg, he] at hok
        exact Except.noConfusion hok
      · simp only [if_neg hf, Fitz.tobytes_png, he] at hok
        exact Except.noConfusion hok
    | none =>
      by_cases hf : image_format = "JPEG"
      · simp only [if_pos hf, Fitz.tobytes_jpeg, he] at hok
        cases hok
        exact ⟨rfl, rfl, hwb.1, hwb.2, hhb.1, hhb.2⟩
      · simp only [if_neg hf, Fitz.tobytes_png, he] at hok
        cases hok
        exact ⟨rfl, rfl, hwb.1, hwb.2, hhb.1, hhb.2⟩

/-- Witness for claim C7 at a concrete input: the clean 72-point-square page
flattened at 72 DPI, whose output page is exactly 72 points square. -/
theorem output_page_size_witness :
    (0 < 72 ∧ (0 : ℚ) ≤ Ex.pgGood.widthPts ∧ (0 : ℚ) ≤ Ex.pgGood.heightPts ∧
      App.flattenPage Ex.pgGood 72 "JPEG" 85 = .ok Ex.op1) ∧
    Ex.op1.width = (Ex.op1.image.w : ℚ) * 72 / (72 : ℚ) ∧
    Ex.op1.height = (Ex.op1.image.h : ℚ) * 72 / (72 : ℚ) ∧
    Ex.pgGood.widthPts ≤ Ex.op1.width ∧
    Ex.op1.width < Ex.pgGood.widthPts + 72 / (72 : ℚ) ∧
    Ex.pgGood.heightPts ≤ Ex.op1.height ∧
    Ex.op1.height < Ex.pgGood.heightPts + 72 / (72 : ℚ) :=
  ⟨⟨by decide, by decide, by decide, by rfl⟩,
   output_page_size_from_bitmap Ex.pgGood 72 "JPEG" 85 Ex.op1
     (by decide) (by decide) (by decide) (by rfl)⟩

end FormMerge
